import Mathlib

/-
  Verification of the notanorm PostgreSQL dialect layer
  (src/notanorm/postgres.py) against its natural-language specification.

  The Python source is shallowly embedded: the schema model types
  (model.py is not shipped in src/, so they are modelled from the specified
  data-model section), and the pure string/model transforms of
  postgres.py (type resolution, column introspection, upsert clause
  building, model simplification, CREATE TABLE / CREATE INDEX emission)
  become executable Lean functions.  Statement execution is external to
  the embedded core: the DDL generators return the SQL text they would
  submit, or an error when the source raises before submitting anything.
-/

namespace Notanorm

/-- Modelled from the spec: the abstract column type enum of the schema
model (spec section 3; model.py is not under src/). -/
inductive DbType where
  | text
  | blob
  | integer
  | boolean
  | float
  | double
  | any
  deriving DecidableEq, Repr

/-- Modelled from the spec: dialect-scoped custom type info attached to a
column (spec section 3; model.py is not under src/). -/
structure DbColCustomInfo where
  dialect : String
  info : String
  deriving DecidableEq, Repr

/-- Modelled from the spec: a schema-model column (spec section 3;
model.py is not under src/).  Field sizes are Nat options; the source
optional string default is an Option String. -/
structure DbCol where
  name : String
  typ : DbType
  fixed : Bool := false
  size : Option Nat := none
  notnull : Bool := false
  default : Option String := none
  autoinc : Bool := false
  custom : Option DbColCustomInfo := none
  deriving DecidableEq, Repr

/-- Modelled from the spec: one field of an index, with an optional
prefix length (spec section 3; model.py is not under src/).  The source
calls the second component prefix_len. -/
structure DbIndexField where
  name : String
  pre_len : Option Nat := none
  deriving DecidableEq, Repr

/-- Modelled from the spec: an index over a table (spec section 3;
model.py is not under src/). -/
structure DbIndex where
  fields : List DbIndexField
  unique : Bool := false
  primary : Bool := false
  name : Option String := none
  deriving DecidableEq, Repr

/-- Modelled from the spec: a table is an ordered sequence of columns
plus its indexes (spec section 3; model.py is not under src/).  The
source stores indexes as a set; a Python set object iterates in a fixed
order once built, embedded here as a list. -/
structure DbTable where
  columns : List DbCol
  indexes : List DbIndex
  deriving DecidableEq, Repr

/-- Modelled from the spec: a model maps table names to tables in
insertion order (spec section 3; model.py is not under src/), embedded
as an ordered association list. -/
abbrev DbModel := List (String × DbTable)

/-- Doubling of embedded double quotes, the escaping step of the
identifier quoting convention. -/
def escQuotes : List Char → List Char
  | [] => []
  | c :: cs => if c = '"' then '"' :: '"' :: escQuotes cs else c :: escQuotes cs

/-- Modelled from the spec: the dialect identifier quoting function
(psycopg2 sql.Identifier, the external quoting collaborator of spec
section 6): wrap in double quotes, doubling embedded double quotes. -/
def quoteIdent (s : String) : String :=
  ⟨'"' :: (escQuotes s.data ++ ['"'])⟩

/-- Errors the embedded create_table can raise before emitting SQL:
err.SchemaError from the autoincrement check, or the assert failure on
unknown custom info (postgres.py lines 120-125, 140-145). -/
inductive SchemaErr where
  | schemaError (msg : String)
  | assertFail (msg : String)
  deriving DecidableEq, Repr

/-- Forward type map _type_map of postgres.py (lines 87-95). -/
def type_map : DbType → String
  | .text => "text"
  | .blob => "bytea"
  | .integer => "bigint"
  | .boolean => "boolean"
  | .float => "real"
  | .double => "double precision"
  | .any => ""

/-- Inverse type map _type_map_inverse of postgres.py (lines 96-98),
keyed on the character list of the native name; mirrors dict.get (none on a
miss). -/
def type_map_inverse (s : List Char) : Option DbType :=
  if s = "text".data then some .text
  else if s = "bytea".data then some .blob
  else if s = "bigint".data then some .integer
  else if s = "boolean".data then some .boolean
  else if s = "real".data then some .float
  else if s = "double precision".data then some .double
  else if s = "".data then some .any
  else none

/-- Custom-info map _type_map_custom of postgres.py (lines 99-102). -/
def type_map_custom (s : List Char) : Option DbColCustomInfo :=
  if s = "text".data then some ⟨"postgres", "text"⟩
  else if s = "bytea".data then some ⟨"postgres", "bytea"⟩
  else none

/-- Modelled from the spec: the per-dialect integer-size-to-native-type
bucket table _int_map referenced at postgres.py line 130 but defined in
base.py, which is not under src/ (spec section 6 lists it among the
per-dialect constants); modelled with the standard PostgreSQL widths. -/
def int_map (n : Nat) : Option String :=
  if n = 2 then some "smallint"
  else if n = 4 then some "integer"
  else if n = 8 then some "bigint"
  else none

/-- Truthiness of an optional size in the source conditions
(Python: a size of None or 0 is falsy). -/
def sizeTruthy : Option Nat → Bool
  | none => false
  | some n => n != 0

/-- Branches of postgres.py lines 126-133: the sized type resolutions
of create_table that apply when no dialect custom info fires, falling
through to the plain forward map. -/
def resolve_type_sized (col : DbCol) : String :=
  match col.size with
  | some n =>
    if n ≠ 0 then
      if col.typ = .text then "varchar(" ++ quoteIdent (Nat.repr n) ++ ")"
      else if col.typ = .blob then "bytea"
      else if col.typ = .integer then
        match int_map n with
        | some t => t
        | none => type_map col.typ
      else type_map col.typ
    else type_map col.typ
  | none => type_map col.typ

/-- Type resolution of create_table for one column, postgres.py lines
113-133: custom info scoped to this dialect first (asserting on unknown
info), then sized text/blob/integer, then the plain forward map. -/
def resolve_type (col : DbCol) : Except SchemaErr String :=
  match col.custom with
  | some cu =>
    if col.typ = .text ∧ cu.dialect = "postgres" then
      if cu.info = "text" then .ok "text"
      else if cu.info = "bytea" then .ok "bytea"
      else .error (.assertFail "unknown custom info")
    else .ok (resolve_type_sized col)
  | none => .ok (resolve_type_sized col)

/-- Structural recursive form of dropping a literal pattern from the
head of a character list (the anchored literal part of re.match). -/
def dropPat : List Char → List Char → Option (List Char)
  | [], s => some s
  | _ :: _, [] => none
  | p :: ps, c :: cs => if p = c then dropPat ps cs else none

/-- Longest leading run of decimal digits, with the rest of the input. -/
def takeDigits : List Char → List Char × List Char
  | [] => ([], [])
  | c :: cs =>
    if c.isDigit then
      let (d, r) := takeDigits cs
      (c :: d, r)
    else ([], c :: cs)

/-- Decimal value of a digit list (the int() applied to a regex group). -/
def digitsToNat (ds : List Char) : Nat :=
  ds.foldl (fun a c => a * 10 + (c.toNat - '0'.toNat)) 0

/-- Anchored match of pat(digits) at the head of the input, as in the
regexes of column_model (postgres.py lines 282-283); trailing input is
allowed, as with re.match. -/
def matchTypeParen (pat : String) (s : List Char) : Option Nat :=
  match dropPat pat.data s with
  | none => none
  | some rest =>
    match rest with
    | '(' :: r2 =>
      match takeDigits r2 with
      | ([], _) => none
      | (ds, r3) =>
        match r3 with
        | ')' :: _ => some (digitsToNat ds)
        | _ => none
    | _ => none

/-- The match_t regex of postgres.py line 282: alternation of the three
character-type literals followed by a parenthesized size. -/
def match_t (s : List Char) : Option Nat :=
  match matchTypeParen "character varying" s with
  | some n => some n
  | none =>
    match matchTypeParen "character" s with
    | some n => some n
    | none => matchTypeParen "text" s

/-- The match_b regex of postgres.py line 283. -/
def match_b (s : List Char) : Option Nat :=
  matchTypeParen "bytea" s

/-- Introspection of one column, column_model of postgres.py lines
270-311: native-type parsing (sized text, sized bytea, inverse map with
ANY fallback), the fixed flag, dialect custom info, and the
notnull/autoinc interaction. -/
def column_model (col_name col_type is_nullable : String)
    (col_default : Option String) (is_auto_increment in_primary : Bool) :
    DbCol :=
  let ct := col_type.data
  let ts : DbType × Option Nat :=
    match match_t ct with
    | some n => (.text, some n)
    | none =>
      match match_b ct with
      | some _ => (.blob, none)
      | none => ((type_map_inverse ct).getD .any, none)
  let autoinc_primary := in_primary && is_auto_increment
  { name := col_name
    typ := ts.1
    fixed := decide (col_type = "character")
    size := ts.2
    notnull := decide (is_nullable = "NO") && !autoinc_primary
    default := col_default
    autoinc := is_auto_increment
    custom := type_map_custom ct }

/-- Upsert clause builder _upsert_sql of postgres.py lines 46-54.  The
source reads primary_fields(table) from the base class (base.py is not
under src/); modelled from the spec (section 4.3: the ordered
primary-key field list) as an explicit argument, whose first element the
source takes with next(iter(...)) - none models the StopIteration on an
empty field set. -/
def upsert_sql (primary_fields : List String) (inssql : String)
    (insvals : List String) (setsql : String) (setvals : List String) :
    Option (String × List String) :=
  if setvals = [] then
    match primary_fields with
    | [] => none
    | f0 :: _ =>
      some (inssql ++ " ON CONFLICT (" ++ f0 ++ ") DO NOTHING", insvals)
  else
    some
      (inssql ++ " ON CONFLICT (" ++ String.intercalate ", " setvals ++
        ") DO UPDATE SET " ++ setsql,
      insvals)

/-- Primary-field scan shared by create_table (postgres.py lines
108-111) and simplify_model (lines 250-254): fold over the indexes,
the fields of each primary index replacing the accumulator. -/
def pfOf (init : List String) (idxs : List DbIndex) : List String :=
  idxs.foldl
    (fun acc idx => if idx.primary then idx.fields.map (fun f => f.name) else acc)
    init

/-- Column-definition rendering of one column inside create_table,
postgres.py lines 113-146: quoted name, resolved type, NOT NULL,
DEFAULT, then the autoincrement validity check (err.SchemaError raised
before any SQL is emitted) and the SERIAL suffix. -/
def colDef (pf : List String) (col : DbCol) : Except SchemaErr String :=
  match resolve_type col with
  | .error e => .error e
  | .ok typ =>
    let base := quoteIdent col.name ++ " " ++ typ
    let base := base ++ (if col.notnull then " NOT NULL" else "")
    let base := base ++
      (match col.default with
      | some d => if d = "" then "" else " DEFAULT " ++ quoteIdent d
      | none => "")
    if col.autoinc then
      if pf = [col.name] then .ok (base ++ " SERIAL")
      else .error (.schemaError ("auto increment only works on primary key: " ++ col.name))
    else .ok base

/-- Sequential rendering of all column definitions (the loop of
postgres.py lines 113-146); the first failing column aborts, exactly as
the Python loop raises. -/
def colDefs (pf : List String) : List DbCol → Except SchemaErr (List String)
  | [] => .ok []
  | c :: cs =>
    match colDef pf c with
    | .error e => .error e
    | .ok d =>
      match colDefs pf cs with
      | .error e => .error e
      | .ok ds => .ok (d :: ds)

/-- The CREATE TABLE statement builder of create_table, postgres.py
lines 104-155.  The source computes an ignore string from
ignore_existing (line 151) but the format string of line 152 never
interpolates it; the embedding mirrors that faithfully.  On success the
returned string is the single statement submitted; on error nothing is
submitted. -/
def create_table (name : String) (schema : DbTable) (ignore_existing : Bool) :
    Except SchemaErr String :=
  let pf := pfOf [] schema.indexes
  match colDefs pf schema.columns with
  | .error e => .error e
  | .ok cds =>
    let cds :=
      if pf ≠ [] then
        cds ++ ["PRIMARY KEY (" ++ String.intercalate ", " (pf.map quoteIdent) ++ ")"]
      else cds
    let _ignore := if ignore_existing then "IF NOT EXISTS " else ""
    .ok ("CREATE TABLE " ++ quoteIdent name ++ " (" ++
      String.intercalate ", " cds ++ ");")

/-- Field rendering inside _create_index, postgres.py lines 166-171: a
plain field goes through the identifier quoting, but a field with a
prefix length is interpolated raw into an f-string. -/
def renderIndexField (f : DbIndexField) : String :=
  match f.pre_len with
  | none => quoteIdent f.name
  | some p => f.name ++ "(" ++ Nat.repr p ++ ")"

/-- The CREATE INDEX statement builder _create_index of postgres.py
lines 160-173. -/
def create_index_sql (table_name index_name : String) (idx : DbIndex) : String :=
  "CREATE " ++ (if idx.unique then "UNIQUE " else "") ++ "INDEX " ++
    quoteIdent index_name ++ " ON " ++ quoteIdent table_name ++ " (" ++
    String.intercalate ", " (idx.fields.map renderIndexField) ++ ")"

/-- Follows the wording of the spec (section 4.2, last paragraph): the same
statement shape with every identifier, including each index field
reference, passed through the quoting function; a prefix length is
appended after the quoted field name.  Used only to compare the source
renderer against the requirement of the spec. -/
def renderIndexFieldSpec (f : DbIndexField) : String :=
  match f.pre_len with
  | none => quoteIdent f.name
  | some p => quoteIdent f.name ++ "(" ++ Nat.repr p ++ ")"

/-- Follows the wording of the spec (section 4.2): CREATE INDEX emission with
all identifiers quoted.  Used only for comparison with
create_index_sql. -/
def create_index_sql_spec (table_name index_name : String) (idx : DbIndex) :
    String :=
  "CREATE " ++ (if idx.unique then "UNIQUE " else "") ++ "INDEX " ++
    quoteIdent index_name ++ " ON " ++ quoteIdent table_name ++ " (" ++
    String.intercalate ", " (idx.fields.map renderIndexFieldSpec) ++ ")"

/-- The index-name length limit of the dialect, postgres.py line 22. -/
def max_index_name : Nat := 63

/-- Modelled from the spec: the index-name length enforcement performed
before _create_index is reached.  the caller of _create_index lives in
base.py, which is not under src/; spec section 8 requires an over-long
name to be rejected or truncated deterministically before submission,
modelled here as deterministic truncation to max_index_name
characters. -/
def enforce_index_name (s : String) : String :=
  if max_index_name < s.length then ⟨s.data.take max_index_name⟩ else s

/-- Index creation as submitted: the spec-modelled length enforcement
applied to the name, then the source _create_index emission. -/
def create_index_checked (table_name index_name : String) (idx : DbIndex) :
    String :=
  create_index_sql table_name (enforce_index_name index_name) idx

/-- Normalization of one column inside simplify_model, postgres.py
lines 256-265: default integer size, primary-key columns forced not
null, and the custom-info conditional of lines 262-264, which
reassigns the unchanged value (the dict d already holds col.custom), so
its else-less form never drops anything. -/
def simplifyCol (pf : List String) (c : DbCol) : DbCol :=
  let sz := if c.typ = .integer ∧ sizeTruthy c.size = false then some 8 else c.size
  let nn := if c.name ∈ pf then true else c.notnull
  let cu :=
    match c.custom with
    | some ci => if ci.dialect = "postgres" then some ci else c.custom
    | none => c.custom
  { c with size := sz, notnull := nn, custom := cu }

/-- Per-table part of simplify_model: columns rewritten, indexes passed
through unchanged (postgres.py lines 255-266). -/
def simplifyTable (pf : List String) (t : DbTable) : DbTable :=
  { columns := t.columns.map (simplifyCol pf), indexes := t.indexes }

/-- Table loop of simplify_model, postgres.py lines 250-266: the
primary_fields accumulator is initialized once, before the loop, so a
table without a primary index inherits the primary fields of the previous table as
fields; the embedding threads that accumulator faithfully. -/
def simplifyGo (pf : List String) : DbModel → DbModel
  | [] => []
  | (nam, tab) :: rest =>
    let pf2 := pfOf pf tab.indexes
    (nam, simplifyTable pf2 tab) :: simplifyGo pf2 rest

/-- Model normalizer simplify_model of postgres.py lines 247-268. -/
def simplify_model (m : DbModel) : DbModel :=
  simplifyGo [] m

/-- Abstract type, size and custom info that column_model reconstructs
from a native type name during introspection. -/
def fromTriple (nat : String) : DbType × Option Nat × Option DbColCustomInfo :=
  ((column_model "c" nat "YES" none false false).typ,
    (column_model "c" nat "YES" none false false).size,
    (column_model "c" nat "YES" none false false).custom)

/-- Round trip of the type mapping: the native type the create_table
resolution rules produce for a column with the given abstract
type/size/custom triple (none when the resolution asserts), pushed back
through the native-type parsing of column_model; the result is the
reconstructed triple. -/
def roundTrip (t : DbType) (s : Option Nat) (c : Option DbColCustomInfo) :
    Option (DbType × Option Nat × Option DbColCustomInfo) :=
  match resolve_type { name := "c", typ := t, size := s, custom := c } with
  | .error _ => none
  | .ok nat => some (fromTriple nat)

/-- Characterization of the triples the round trip preserves: the
unsized custom-free types other than text and bytea-shaped ones, plus
the two dialect custom texts. -/
def roundStable (t : DbType) (s : Option Nat) (c : Option DbColCustomInfo) :
    Prop :=
  (s = none ∧ c = none ∧
    (t = .integer ∨ t = .boolean ∨ t = .float ∨ t = .double ∨ t = .any)) ∨
  (t = .text ∧ s = none ∧ c = some ⟨"postgres", "text"⟩) ∨
  (t = .blob ∧ s = none ∧ c = some ⟨"postgres", "bytea"⟩)

instance (t : DbType) (s : Option Nat) (c : Option DbColCustomInfo) :
    Decidable (roundStable t s c) := by
  unfold roundStable
  infer_instance

/-! ## Theorems -/

/-- C10: for every introspected column, column_model returns notnull
equal to (is_nullable = "NO"), except that a column both in the primary
key and flagged auto-increment is returned with notnull false even when
the catalog reports it non-nullable; no other combination of in_primary
and is_auto_increment alters the notnull result. -/
theorem column_model_notnull_rule (col_name col_type is_nullable : String)
    (col_default : Option String) (is_auto_increment in_primary : Bool) :
    (column_model col_name col_type is_nullable col_default
        is_auto_increment in_primary).notnull =
      if in_primary && is_auto_increment then false
      else decide (is_nullable = "NO") := by
  cases in_primary <;> cases is_auto_increment <;> simp [column_model]

/-- C5: with no update-set values, the upsert builder returns the
insert SQL extended with a do-nothing-on-conflict clause keyed on the
first primary-key field; with update values it returns a do-update
clause whose conflict target is exactly the joined explicit conflict
columns; in both cases the returned value list is exactly insvals, in
order. -/
theorem upsert_sql_clauses (pf : List String) (f0 : String)
    (rest : List String) (inssql setsql : String)
    (insvals setvals : List String) :
    (upsert_sql (f0 :: rest) inssql insvals setsql [] =
      some (inssql ++ " ON CONFLICT (" ++ f0 ++ ") DO NOTHING", insvals)) ∧
    (setvals ≠ [] →
      upsert_sql pf inssql insvals setsql setvals =
        some (inssql ++ " ON CONFLICT (" ++
          String.intercalate ", " setvals ++ ") DO UPDATE SET " ++ setsql,
          insvals)) := by
  constructor
  · simp [upsert_sql]
  · intro h
    simp [upsert_sql, h]

/-- C5 witness: the two clause shapes at concrete inputs. -/
theorem upsert_sql_clauses_witness :
    (upsert_sql ["id"] "INS" ["v1"] "S" [] =
      some ("INS ON CONFLICT (id) DO NOTHING", ["v1"])) ∧
    (upsert_sql ["id"] "INS" ["v1"] "S" ["a", "b"] =
      some ("INS ON CONFLICT (a, b) DO UPDATE SET S", ["v1"])) := by
  have h := upsert_sql_clauses ["id"] "id" [] "INS" "S" ["v1"] ["a", "b"]
  exact ⟨h.1, h.2 (by decide)⟩

/-- Schema used to exercise the unused if-not-exists flag of
create_table. -/
def c6schema : DbTable :=
  { columns := [{ name := "id", typ := .integer },
                { name := "em", typ := .text, notnull := true }],
    indexes := [{ fields := [⟨"id", none⟩], primary := true }] }

/-- C6: create_table computes the IF NOT EXISTS fragment from the
ignore_existing flag (postgres.py line 151) but the format string of
line 152 never interpolates it, so the flag has no effect on the
emitted statement; the statement still lists the column definitions
followed by the PRIMARY KEY clause. -/
theorem create_table_drops_if_not_exists :
    (∀ (name : String) (schema : DbTable),
      create_table name schema true = create_table name schema false) ∧
    create_table "t" c6schema true =
      .ok ("CREATE TABLE \"t\" (\"id\" bigint, \"em\" text NOT NULL, " ++
        "PRIMARY KEY (\"id\"));") := by
  exact ⟨fun _ _ => rfl, rfl⟩

/-- Column carrying custom type info scoped to another dialect. -/
def c7col : DbCol :=
  { name := "x", typ := .text, custom := some ⟨"mysql", "blob"⟩ }

/-- C7: simplify_model does not drop custom type info scoped to another
dialect: the conditional of postgres.py lines 262-264 only reassigns
the value the column dict already holds, so a mysql-scoped custom info
survives normalization unchanged. -/
theorem simplify_model_keeps_foreign_custom :
    simplify_model [("t", { columns := [c7col], indexes := [] })] =
      [("t", { columns := [c7col], indexes := [] })] ∧
    ((simplify_model [("t", { columns := [c7col], indexes := [] })]).map
        (fun p => p.2.columns.map (fun col => col.custom))) =
      [[some ⟨"mysql", "blob"⟩]] := by
  exact ⟨by decide, by decide⟩

/-- Model feeding the primary-fields leak of simplify_model: table a
has a primary key on id, table b has no primary index at all and a
nullable column that happens to be called id. -/
def c4model : DbModel :=
  [("a", { columns := [{ name := "id", typ := .integer, size := some 8,
                         notnull := true }],
           indexes := [{ fields := [⟨"id", none⟩], primary := true }] }),
   ("b", { columns := [{ name := "id", typ := .text, notnull := false }],
           indexes := [] })]

/-- C4: simplify_model initializes its primary_fields accumulator once,
before the table loop (postgres.py line 250), so table b - which has no
primary index - is normalized with the primary-key field set of table a and
its nullable column id comes back notnull, contradicting the per-table
rule. -/
theorem simplify_model_leaks_primary_fields :
    simplify_model c4model =
      [("a", { columns := [{ name := "id", typ := .integer, size := some 8,
                             notnull := true }],
               indexes := [{ fields := [⟨"id", none⟩], primary := true }] }),
       ("b", { columns := [{ name := "id", typ := .text, notnull := true }],
               indexes := [] })] := by
  decide

/-- Index whose single field carries a prefix length. -/
def c8idx : DbIndex := { fields := [⟨"a", some 5⟩] }

/-- C8 counterexample: a field rendered with a prefix-length suffix is
interpolated raw, not passed through the quoting function, so the
emitted statement differs from the all-quoted form of the spec. -/
theorem create_index_field_not_quoted :
    create_index_sql "t" "i" c8idx = "CREATE INDEX \"i\" ON \"t\" (a(5))" ∧
    create_index_sql "t" "i" c8idx ≠ create_index_sql_spec "t" "i" c8idx := by
  decide

/-- C8 amended: where the quoting function is applied in the two DDL
emitters.  In create_table every identifier is passed through it: each
successful column definition starts with the quoted column name, and
the assembled statement places the quoted table name and the quoted
primary-key fields at their positions.  In _create_index the index name
and the table name are passed through it unconditionally, and every
field is as well whenever no field carries a prefix length - in that
case the source emission coincides with the all-quoted emission of the
spec; a field rendered with a prefix-length suffix is the one
exception, concatenated unescaped. -/
theorem ddl_identifiers_quoted :
    (∀ (pf : List String) (col : DbCol) (d : String),
      colDef pf col = .ok d →
      ∃ rest, d = quoteIdent col.name ++ " " ++ rest) ∧
    (∀ (name : String) (schema : DbTable) (ie : Bool) (s : String),
      create_table name schema ie = .ok s →
      ∃ cds, colDefs (pfOf [] schema.indexes) schema.columns = .ok cds ∧
        s = "CREATE TABLE " ++ quoteIdent name ++ " (" ++
          String.intercalate ", "
            (if pfOf [] schema.indexes ≠ [] then
              cds ++ ["PRIMARY KEY (" ++
                String.intercalate ", "
                  ((pfOf [] schema.indexes).map quoteIdent) ++ ")"]
            else cds) ++ ");") ∧
    (∀ (t i : String) (idx : DbIndex),
      create_index_sql t i idx =
        "CREATE " ++ (if idx.unique then "UNIQUE " else "") ++ "INDEX " ++
          quoteIdent i ++ " ON " ++ quoteIdent t ++ " (" ++
          String.intercalate ", " (idx.fields.map renderIndexField) ++ ")") ∧
    (∀ (t i : String) (idx : DbIndex),
      (∀ f ∈ idx.fields, f.pre_len = none) →
      create_index_sql t i idx = create_index_sql_spec t i idx) := by
  have head_rest_snoc : ∀ (q y z : String),
      (∃ rest, y = q ++ rest) → ∃ rest, y ++ z = q ++ rest :=
    fun q y z ⟨r, h⟩ => ⟨r ++ z, by rw [h, String.append_assoc]⟩
  refine ⟨?_, ?_, fun t i idx => rfl, ?_⟩
  · intro pf col d hd
    cases hr : resolve_type col with
    | error e => simp [colDef, hr] at hd
    | ok typ =>
      cases hai : col.autoinc with
      | false =>
        simp [colDef, hr, hai] at hd
        rw [← hd]
        exact head_rest_snoc _ _ _ (head_rest_snoc _ _ _ ⟨typ, rfl⟩)
      | true =>
        by_cases hpf : pf = [col.name]
        · simp [colDef, hr, hai, hpf] at hd
          rw [← hd]
          exact head_rest_snoc _ _ _
            (head_rest_snoc _ _ _ (head_rest_snoc _ _ _ ⟨typ, rfl⟩))
        · simp [colDef, hr, hai, hpf] at hd
  · intro name schema ie s hs
    cases h1 : colDefs (pfOf [] schema.indexes) schema.columns with
    | error e => simp [create_table, h1] at hs
    | ok cds =>
      simp only [create_table, h1, Except.ok.injEq] at hs
      exact ⟨cds, rfl, hs.symm⟩
  · intro t i idx h
    unfold create_index_sql create_index_sql_spec
    have hm : idx.fields.map renderIndexField =
        idx.fields.map renderIndexFieldSpec := by
      apply List.map_congr_left
      intro f hf
      simp [renderIndexField, renderIndexFieldSpec, h f hf]
    rw [hm]

/-- Schema used to instantiate the create_table half of the quoting
theorem. -/
def c8schema : DbTable :=
  { columns := [{ name := "id", typ := .integer, autoinc := true },
                { name := "em", typ := .text }],
    indexes := [{ fields := [⟨"id", none⟩], primary := true }] }

/-- C8 amended witness: the quoted column-definition head, the quoted
table name and primary-key clause of create_table, and the agreement of
the two index emissions on a concrete prefix-length-free index. -/
theorem ddl_identifiers_quoted_witness :
    (∃ rest, ("\"id\" bigint" : String) = quoteIdent "id" ++ " " ++ rest) ∧
    (∃ cds, colDefs (pfOf [] c8schema.indexes) c8schema.columns = .ok cds ∧
      ("CREATE TABLE \"t\" (\"id\" bigint SERIAL, \"em\" text, " ++
          "PRIMARY KEY (\"id\"));" : String) =
        "CREATE TABLE " ++ quoteIdent "t" ++ " (" ++
          String.intercalate ", "
            (if pfOf [] c8schema.indexes ≠ [] then
              cds ++ ["PRIMARY KEY (" ++
                String.intercalate ", "
                  ((pfOf [] c8schema.indexes).map quoteIdent) ++ ")"]
            else cds) ++ ");") ∧
    create_index_sql "t" "i" { fields := [⟨"a", none⟩, ⟨"b", none⟩] } =
      create_index_sql_spec "t" "i" { fields := [⟨"a", none⟩, ⟨"b", none⟩] } := by
  refine ⟨?_, ?_, ?_⟩
  · exact ddl_identifiers_quoted.1 []
      { name := "id", typ := .integer } "\"id\" bigint" (by rfl)
  · exact ddl_identifiers_quoted.2.1 "t" c8schema false
      ("CREATE TABLE \"t\" (\"id\" bigint SERIAL, \"em\" text, " ++
        "PRIMARY KEY (\"id\"));") (by rfl)
  · exact ddl_identifiers_quoted.2.2.2 "t" "i" _ (by decide)

/-- C9: an index name longer than max_index_name is deterministically
truncated before the statement is built, so the over-long name is never
passed through unchanged: the submitted statement is built from the
truncated name, which differs from the original and has exactly the
length of the limit. -/
theorem index_name_length_enforced (t i : String) (idx : DbIndex)
    (h : max_index_name < i.length) :
    create_index_checked t i idx =
      create_index_sql t (enforce_index_name i) idx ∧
    enforce_index_name i ≠ i ∧
    (enforce_index_name i).length = max_index_name := by
  refine ⟨rfl, ?_, ?_⟩
  · intro he
    have h2 : (enforce_index_name i).length = i.length := by rw [he]
    rw [enforce_index_name, if_pos h] at h2
    have h3 : (i.data.take max_index_name).length = i.data.length := h2
    rw [List.length_take] at h3
    have h4 : i.length = i.data.length := rfl
    rw [max_index_name] at h
    simp [max_index_name] at h3
    omega
  · rw [enforce_index_name, if_pos h]
    show (i.data.take max_index_name).length = max_index_name
    rw [List.length_take]
    have h4 : i.length = i.data.length := rfl
    rw [max_index_name] at h ⊢
    omega

/-- C9 witness: a 64-character index name is truncated, changed, and
cut to the limit. -/
theorem index_name_length_enforced_witness :
    max_index_name <
      ("abcdefgh" ++ "abcdefgh" ++ "abcdefgh" ++ "abcdefgh" ++ "abcdefgh" ++
        "abcdefgh" ++ "abcdefgh" ++ "abcdefgh" : String).length ∧
    (create_index_checked "t"
        ("abcdefgh" ++ "abcdefgh" ++ "abcdefgh" ++ "abcdefgh" ++ "abcdefgh" ++
          "abcdefgh" ++ "abcdefgh" ++ "abcdefgh") c8idx =
      create_index_sql "t"
        (enforce_index_name
          ("abcdefgh" ++ "abcdefgh" ++ "abcdefgh" ++ "abcdefgh" ++ "abcdefgh" ++
            "abcdefgh" ++ "abcdefgh" ++ "abcdefgh")) c8idx ∧
      enforce_index_name
          ("abcdefgh" ++ "abcdefgh" ++ "abcdefgh" ++ "abcdefgh" ++ "abcdefgh" ++
            "abcdefgh" ++ "abcdefgh" ++ "abcdefgh") ≠
        ("abcdefgh" ++ "abcdefgh" ++ "abcdefgh" ++ "abcdefgh" ++ "abcdefgh" ++
          "abcdefgh" ++ "abcdefgh" ++ "abcdefgh") ∧
      (enforce_index_name
          ("abcdefgh" ++ "abcdefgh" ++ "abcdefgh" ++ "abcdefgh" ++ "abcdefgh" ++
            "abcdefgh" ++ "abcdefgh" ++ "abcdefgh")).length = max_index_name) :=
  ⟨by decide, index_name_length_enforced "t" _ c8idx (by decide)⟩

/-- Well-formedness of the custom info of a column with respect to the
assert of postgres.py line 125: when custom info scoped to this dialect
applies to a text column, its info names one of the two known native
types. -/
def customOK (c : DbCol) : Bool :=
  match c.custom with
  | none => true
  | some cu =>
    !(decide (c.typ = .text) && decide (cu.dialect = "postgres")) ||
      (decide (cu.info = "text") || decide (cu.info = "bytea"))

/-- Existence of a success value for a non-failing Except. -/
lemma except_ok_exists {α ε : Type} (x : Except ε α)
    (h : ∀ e, x ≠ .error e) : ∃ a, x = .ok a := by
  cases x with
  | error e => exact absurd rfl (h e)
  | ok a => exact ⟨a, rfl⟩

/-- Type resolution cannot fail on a column whose custom info is
well-formed. -/
lemma resolve_type_ok_of_customOK (c : DbCol) (h : customOK c = true) :
    ∃ t, resolve_type c = .ok t := by
  cases hc : c.custom with
  | none => exact ⟨resolve_type_sized c, by simp [resolve_type, hc]⟩
  | some cu =>
    simp only [resolve_type, hc]
    by_cases h1 : c.typ = .text ∧ cu.dialect = "postgres"
    · rw [if_pos h1]
      unfold customOK at h
      rw [hc] at h
      simp [h1.1, h1.2] at h
      by_cases h2 : cu.info = "text"
      · exact ⟨_, by rw [if_pos h2]⟩
      · have h3 : cu.info = "bytea" := by
          rcases h with h | h
          · exact absurd h h2
          · exact h
        exact ⟨_, by rw [if_neg h2, if_pos h3]⟩
    · rw [if_neg h1]
      exact ⟨_, rfl⟩

/-- Behaviour of one column definition under a well-formed custom info:
it renders successfully exactly when the autoincrement check passes,
and any failure is the schema error of postgres.py line 142. -/
lemma colDef_props (pf : List String) (c : DbCol) (h : customOK c = true) :
    ((∃ s, colDef pf c = .ok s) ↔ (c.autoinc = true → pf = [c.name])) ∧
    (∀ e, colDef pf c = .error e → ∃ m, e = .schemaError m) := by
  obtain ⟨t, ht⟩ := resolve_type_ok_of_customOK c h
  cases hai : c.autoinc with
  | false =>
    constructor
    · constructor
      · intro _ ha
        exact absurd ha (by simp)
      · intro _
        apply except_ok_exists
        intro e he
        simp [colDef, ht, hai] at he
    · intro e he
      simp [colDef, ht, hai] at he
  | true =>
    by_cases hpf : pf = [c.name]
    · constructor
      · constructor
        · intro _ _
          exact hpf
        · intro _
          apply except_ok_exists
          intro e he
          simp [colDef, ht, hai, hpf] at he
      · intro e he
        simp [colDef, ht, hai, hpf] at he
    · constructor
      · constructor
        · intro ⟨s, hs⟩
          simp [colDef, ht, hai, hpf] at hs
        · intro himp
          exact absurd (himp rfl) hpf
      · intro e he
        simp [colDef, ht, hai, hpf] at he
        exact ⟨_, he.symm⟩

/-- Behaviour of the whole column-definition loop: it succeeds exactly
when every autoincrement column is the sole primary-key field, and any
failure is a schema error. -/
lemma colDefs_props (pf : List String) :
    ∀ (cols : List DbCol), (∀ c ∈ cols, customOK c = true) →
      ((∃ ds, colDefs pf cols = .ok ds) ↔
        (∀ c ∈ cols, c.autoinc = true → pf = [c.name])) ∧
      (∀ e, colDefs pf cols = .error e → ∃ m, e = .schemaError m)
  | [], _ => by simp [colDefs]
  | c :: cs, h => by
    have hc := colDef_props pf c (h c (by simp))
    have ih := colDefs_props pf cs (fun x hx => h x (by simp [hx]))
    cases h1 : colDef pf c with
    | error e =>
      have heq : colDefs pf (c :: cs) = .error e := by simp [colDefs, h1]
      constructor
      · constructor
        · intro ⟨ds, hds⟩
          rw [heq] at hds
          exact absurd hds (by simp)
        · intro hall
          obtain ⟨s, hs⟩ := hc.1.mpr (fun ha => hall c (by simp) ha)
          rw [h1] at hs
          exact absurd hs (by simp)
      · intro e2 he
        rw [heq] at he
        simp at he
        rw [← he]
        exact hc.2 e h1
    | ok d =>
      cases h2 : colDefs pf cs with
      | error e =>
        have heq : colDefs pf (c :: cs) = .error e := by simp [colDefs, h1, h2]
        constructor
        · constructor
          · intro ⟨ds, hds⟩
            rw [heq] at hds
            exact absurd hds (by simp)
          · intro hall
            obtain ⟨ds, hds⟩ := ih.1.mpr (fun x hx ha => hall x (by simp [hx]) ha)
            rw [h2] at hds
            exact absurd hds (by simp)
        · intro e2 he
          rw [heq] at he
          simp at he
          rw [← he]
          exact ih.2 e h2
      | ok ds =>
        have heq : colDefs pf (c :: cs) = .ok (d :: ds) := by simp [colDefs, h1, h2]
        constructor
        · constructor
          · intro _ x hx
            rcases List.mem_cons.mp hx with rfl | hx2
            · exact fun ha => hc.1.mp ⟨d, h1⟩ ha
            · exact fun ha => ih.1.mp ⟨ds, h2⟩ x hx2 ha
          · intro _
            exact ⟨d :: ds, heq⟩
        · intro e2 he
          rw [heq] at he
          exact absurd he (by simp)

/-- C2: under well-formed custom info, create_table succeeds exactly
when the name of every autoincrement column is the sole primary-key
field, and every failure is err.SchemaError - raised while building the
column definitions, so the error result carries no statement and
nothing is submitted. -/
theorem create_table_autoinc_validity (name : String) (schema : DbTable)
    (ie : Bool) (hc : ∀ c ∈ schema.columns, customOK c = true) :
    ((∃ s, create_table name schema ie = .ok s) ↔
      (∀ c ∈ schema.columns, c.autoinc = true →
        pfOf [] schema.indexes = [c.name])) ∧
    (∀ e, create_table name schema ie = .error e →
      ∃ m, e = .schemaError m) := by
  have h := colDefs_props (pfOf [] schema.indexes) schema.columns hc
  constructor
  · constructor
    · intro ⟨s, hs⟩
      apply h.1.mp
      cases h1 : colDefs (pfOf [] schema.indexes) schema.columns with
      | error e => simp [create_table, h1] at hs
      | ok ds => exact ⟨ds, rfl⟩
    · intro hall
      obtain ⟨ds, hds⟩ := h.1.mpr hall
      apply except_ok_exists
      intro e he
      simp [create_table, hds] at he
  · intro e he
    cases h1 : colDefs (pfOf [] schema.indexes) schema.columns with
    | error e2 =>
      have he2 : e = e2 := by
        simp [create_table, h1] at he
        exact he.symm
      rw [he2]
      exact h.2 e2 h1
    | ok ds =>
      simp [create_table, h1] at he

/-- Schema whose autoincrement column is the sole primary-key field. -/
def c2ok : DbTable :=
  { columns := [{ name := "id", typ := .integer, autoinc := true },
                { name := "em", typ := .text }],
    indexes := [{ fields := [⟨"id", none⟩], primary := true }] }

/-- Schema whose autoincrement column is not the primary-key field. -/
def c2bad : DbTable :=
  { columns := [{ name := "x", typ := .integer, autoinc := true }],
    indexes := [{ fields := [⟨"id", none⟩], primary := true }] }

/-- C2 witness: the valid schema renders, the invalid one fails with a
schema error. -/
theorem create_table_autoinc_validity_witness :
    (∃ s, create_table "t" c2ok false = .ok s) ∧
    ¬(∃ s, create_table "t" c2bad false = .ok s) ∧
    (∀ e, create_table "t" c2bad false = .error e →
      ∃ m, e = .schemaError m) := by
  refine ⟨?_, ?_, ?_⟩
  · exact (create_table_autoinc_validity "t" c2ok false (by decide)).1.mpr
      (by decide)
  · intro hs
    have h := (create_table_autoinc_validity "t" c2bad false (by decide)).1.mp hs
    exact absurd h (by decide)
  · exact (create_table_autoinc_validity "t" c2bad false (by decide)).2

/-- One column normalization pass is idempotent: the forced size 8 is
no longer falsy, the forced notnull stays true, and the custom field is
never changed. -/
lemma simplifyCol_idem (pf : List String) (c : DbCol) :
    simplifyCol pf (simplifyCol pf c) = simplifyCol pf c := by
  obtain ⟨nm, ty, fx, sz, nn, df, ai, cu⟩ := c
  rcases sz with _ | n <;> rcases cu with _ | ⟨d, i⟩ <;>
    by_cases h2 : nm ∈ pf <;> cases ty <;>
    first
      | (simp [simplifyCol, sizeTruthy, h2]; done)
      | (by_cases hn : n = 0 <;> simp [simplifyCol, sizeTruthy, h2, hn])

/-- One table normalization pass is idempotent. -/
lemma simplifyTable_idem (pf : List String) (t : DbTable) :
    simplifyTable pf (simplifyTable pf t) = simplifyTable pf t := by
  have hcols : (t.columns.map (simplifyCol pf)).map (simplifyCol pf) =
      t.columns.map (simplifyCol pf) := by
    rw [List.map_map]
    apply List.map_congr_left
    intro a _
    simpa using simplifyCol_idem pf a
  simp [simplifyTable, hcols]

/-- The table loop of simplify_model is idempotent for any incoming
primary-fields accumulator: normalization preserves the index lists, so
the second pass recomputes the same accumulator sequence. -/
lemma simplifyGo_idem (pf : List String) :
    ∀ (m : DbModel), simplifyGo pf (simplifyGo pf m) = simplifyGo pf m
  | [] => rfl
  | (nam, tab) :: rest => by
    simp only [simplifyGo]
    have hidx : (simplifyTable (pfOf pf tab.indexes) tab).indexes = tab.indexes :=
      rfl
    rw [hidx, simplifyTable_idem (pfOf pf tab.indexes) tab,
      simplifyGo_idem (pfOf pf tab.indexes) rest]

/-- C3: normalization is idempotent - running simplify_model twice
yields the same model as running it once. -/
theorem simplify_model_idempotent (m : DbModel) :
    simplify_model (simplify_model m) = simplify_model m :=
  simplifyGo_idem [] m

/-- A pattern whose first character differs from a differing first
character never drops. -/
lemma dropPat_head_ne (p c : Char) (ps cs : List Char) (h : p ≠ c) :
    dropPat (p :: ps) (c :: cs) = none := by
  simp [dropPat, h]

/-- A parenthesized-size literal match fails on an input whose head
differs from the head of the pattern. -/
lemma matchTypeParen_head_ne (pat : String) (p : Char) (ps : List Char)
    (hp : pat.data = p :: ps) (c : Char) (r : List Char) (h : p ≠ c) :
    matchTypeParen pat (c :: r) = none := by
  simp [matchTypeParen, hp, dropPat_head_ne p c ps r h]

/-- A character list cannot equal the data of a string whose first
character differs. -/
lemma cons_ne_data (c : Char) (r : List Char) (t : String) (p : Char)
    (ps : List Char) (ht : t.data = p :: ps) (h : c ≠ p) :
    ¬(c :: r = t.data) := by
  rw [ht]
  simp [h]

/-- Introspection of any native name starting with the letter v: none
of the parenthesized-size patterns nor any map key starts with v, so
the reconstruction falls through to the ANY fallback with no size and
no custom info. -/
lemma fromTriple_head_v (s : String) (r : List Char) (hs : s.data = 'v' :: r) :
    fromTriple s = (DbType.any, none, none) := by
  have hmt : match_t s.data = none := by
    rw [hs]
    simp [match_t,
      matchTypeParen_head_ne "character varying" 'c' ("haracter varying".data)
        rfl 'v' r (by decide),
      matchTypeParen_head_ne "character" 'c' ("haracter".data) rfl 'v' r
        (by decide),
      matchTypeParen_head_ne "text" 't' ("ext".data) rfl 'v' r (by decide)]
  have hmb : match_b s.data = none := by
    rw [hs]
    simp [match_b,
      matchTypeParen_head_ne "bytea" 'b' ("ytea".data) rfl 'v' r (by decide)]
  have hinv : type_map_inverse s.data = none := by
    rw [hs]
    have hemp : ("" : String).data = [] := rfl
    simp [type_map_inverse, hemp,
      cons_ne_data 'v' r "text" 't' ("ext".data) rfl (by decide),
      cons_ne_data 'v' r "bytea" 'b' ("ytea".data) rfl (by decide),
      cons_ne_data 'v' r "bigint" 'b' ("igint".data) rfl (by decide),
      cons_ne_data 'v' r "boolean" 'b' ("oolean".data) rfl (by decide),
      cons_ne_data 'v' r "real" 'r' ("eal".data) rfl (by decide),
      cons_ne_data 'v' r "double precision" 'd' ("ouble precision".data) rfl
        (by decide)]
  have hcust : type_map_custom s.data = none := by
    rw [hs]
    simp [type_map_custom,
      cons_ne_data 'v' r "text" 't' ("ext".data) rfl (by decide),
      cons_ne_data 'v' r "bytea" 'b' ("ytea".data) rfl (by decide)]
  simp [fromTriple, column_model, hmt, hmb, hinv, hcust]

/-- Data decomposition of the varchar rendering: it always starts with
the letter v. -/
lemma varchar_data (x : String) :
    ("varchar(" ++ x ++ ")").data = 'v' :: ("archar(" ++ x ++ ")").data := by
  have h1 : ("varchar(" ++ x ++ ")").data =
      "varchar(".data ++ x.data ++ ")".data := by
    rw [String.data_append, String.data_append]
  have h2 : ("archar(" ++ x ++ ")").data =
      "archar(".data ++ x.data ++ ")".data := by
    rw [String.data_append, String.data_append]
  rw [h1, h2]
  rfl

/-- Introspection never recognizes the varchar rendering emitted by
create_table for sized text: it reconstructs the ANY fallback. -/
lemma fromTriple_varchar (x : String) :
    fromTriple ("varchar(" ++ x ++ ")") = (DbType.any, none, none) :=
  fromTriple_head_v _ _ (varchar_data x)

lemma ft_text : fromTriple "text" = (DbType.text, none, some ⟨"postgres", "text"⟩) := by
  decide

lemma ft_bytea : fromTriple "bytea" = (DbType.blob, none, some ⟨"postgres", "bytea"⟩) := by
  decide

lemma ft_bigint : fromTriple "bigint" = (DbType.integer, none, none) := by decide

lemma ft_boolean : fromTriple "boolean" = (DbType.boolean, none, none) := by decide

lemma ft_real : fromTriple "real" = (DbType.float, none, none) := by decide

lemma ft_double : fromTriple "double precision" = (DbType.double, none, none) := by
  decide

lemma ft_empty : fromTriple "" = (DbType.any, none, none) := by decide

lemma ft_smallint : fromTriple "smallint" = (DbType.any, none, none) := by decide

lemma ft_int_native : fromTriple "integer" = (DbType.any, none, none) := by decide

/-- C1 counterexample: already for the plain unsized TEXT type with no
custom info, reverse-mapping the generated native type does not yield
the original triple - introspection attaches the custom
info. -/
theorem roundtrip_unstable_plain_text :
    roundTrip .text none none = some (.text, none, some ⟨"postgres", "text"⟩) ∧
    roundTrip .text none none ≠ some (.text, none, none) := by
  decide

/-- C1 amended: the round trip reconstructs the original
type/size/custom triple exactly for the unsized custom-free INTEGER,
BOOLEAN, FLOAT, DOUBLE and ANY types and for the two dialect-scoped
custom combinations (TEXT with custom postgres text, BLOB with custom
postgres bytea); every other combination fails - unsized TEXT and BLOB
acquire custom info, sized TEXT is emitted as a varchar rendering the
introspection parser does not recognize, sized INTEGER and BLOB lose
their size, and foreign-dialect custom info is never reconstructed. -/
theorem roundtrip_characterization (t : DbType) (s : Option Nat)
    (c : Option DbColCustomInfo) :
    roundTrip t s c = some (t, s, c) ↔ roundStable t s c := by
  rcases c with _ | ⟨d, i⟩
  · rcases s with _ | n
    · cases t <;> decide
    · cases t
      case text =>
        by_cases hn : n = 0
        · subst hn; decide
        · have hv := fromTriple_varchar (quoteIdent (Nat.repr n))
          simp [roundTrip, resolve_type, resolve_type_sized, type_map, hn, hv, roundStable]
      case blob =>
        by_cases hn : n = 0
        · subst hn; decide
        · simp [roundTrip, resolve_type, resolve_type_sized, type_map, hn, ft_bytea,
            roundStable]
      case integer =>
        by_cases h0 : n = 0
        · subst h0; decide
        by_cases h2 : n = 2
        · subst h2; decide
        by_cases h4 : n = 4
        · subst h4; decide
        by_cases h8 : n = 8
        · subst h8; decide
        simp [roundTrip, resolve_type, resolve_type_sized, type_map, int_map, h0, h2, h4,
          h8, ft_bigint, roundStable]
      case boolean =>
        by_cases hn : n = 0
        · subst hn; decide
        · simp [roundTrip, resolve_type, resolve_type_sized, type_map, hn, ft_boolean,
            roundStable]
      case float =>
        by_cases hn : n = 0
        · subst hn; decide
        · simp [roundTrip, resolve_type, resolve_type_sized, type_map, hn, ft_real,
            roundStable]
      case double =>
        by_cases hn : n = 0
        · subst hn; decide
        · simp [roundTrip, resolve_type, resolve_type_sized, type_map, hn, ft_double,
            roundStable]
      case any =>
        by_cases hn : n = 0
        · subst hn; decide
        · simp [roundTrip, resolve_type, resolve_type_sized, type_map, hn, ft_empty,
            roundStable]
  · cases t
    case text =>
      by_cases hd : d = "postgres"
      · subst hd
        by_cases hi : i = "text"
        · subst hi
          rcases s with _ | n <;>
            simp [roundTrip, resolve_type, ft_text, roundStable]
        · by_cases hb : i = "bytea"
          · subst hb
            rcases s with _ | n <;>
              simp [roundTrip, resolve_type, ft_bytea, roundStable, hi]
          · rcases s with _ | n <;>
              simp [roundTrip, resolve_type, hi, hb, roundStable]
      · rcases s with _ | n
        · simp [roundTrip, resolve_type, resolve_type_sized, type_map, hd, ft_text,
            roundStable, Ne.symm hd]
        · by_cases hn : n = 0
          · subst hn
            simp [roundTrip, resolve_type, resolve_type_sized, type_map, hd, ft_text,
              roundStable, Ne.symm hd]
          · have hv := fromTriple_varchar (quoteIdent (Nat.repr n))
            simp [roundTrip, resolve_type, resolve_type_sized, type_map, hd, hn, hv,
              roundStable]
    case blob =>
      rcases s with _ | n
      · simp [roundTrip, resolve_type, resolve_type_sized, type_map, ft_bytea,
          roundStable, eq_comm]
      · by_cases hn : n = 0
        · subst hn
          simp [roundTrip, resolve_type, resolve_type_sized, type_map, ft_bytea,
            roundStable]
        · simp [roundTrip, resolve_type, resolve_type_sized, type_map, hn, ft_bytea,
            roundStable]
    case integer =>
      rcases s with _ | n
      · simp [roundTrip, resolve_type, resolve_type_sized, type_map, ft_bigint,
          roundStable]
      · by_cases h0 : n = 0
        · subst h0
          simp [roundTrip, resolve_type, resolve_type_sized, type_map, ft_bigint,
            roundStable]
        by_cases h2 : n = 2
        · subst h2
          simp [roundTrip, resolve_type, resolve_type_sized, type_map, int_map,
            ft_smallint, roundStable]
        by_cases h4 : n = 4
        · subst h4
          simp [roundTrip, resolve_type, resolve_type_sized, type_map, int_map,
            ft_int_native, roundStable]
        by_cases h8 : n = 8
        · subst h8
          simp [roundTrip, resolve_type, resolve_type_sized, type_map, int_map,
            ft_bigint, roundStable]
        simp [roundTrip, resolve_type, resolve_type_sized, type_map, int_map, h0, h2,
          h4, h8, ft_bigint, roundStable]
    case boolean =>
      rcases s with _ | n
      · simp [roundTrip, resolve_type, resolve_type_sized, type_map, ft_boolean,
          roundStable]
      · by_cases hn : n = 0
        · subst hn
          simp [roundTrip, resolve_type, resolve_type_sized, type_map, ft_boolean,
            roundStable]
        · simp [roundTrip, resolve_type, resolve_type_sized, type_map, hn, ft_boolean,
            roundStable]
    case float =>
      rcases s with _ | n
      · simp [roundTrip, resolve_type, resolve_type_sized, type_map, ft_real,
          roundStable]
      · by_cases hn : n = 0
        · subst hn
          simp [roundTrip, resolve_type, resolve_type_sized, type_map, ft_real,
            roundStable]
        · simp [roundTrip, resolve_type, resolve_type_sized, type_map, hn, ft_real,
            roundStable]
    case double =>
      rcases s with _ | n
      · simp [roundTrip, resolve_type, resolve_type_sized, type_map, ft_double,
          roundStable]
      · by_cases hn : n = 0
        · subst hn
          simp [roundTrip, resolve_type, resolve_type_sized, type_map, ft_double,
            roundStable]
        · simp [roundTrip, resolve_type, resolve_type_sized, type_map, hn, ft_double,
            roundStable]
    case any =>
      rcases s with _ | n
      · simp [roundTrip, resolve_type, resolve_type_sized, type_map, ft_empty,
          roundStable]
      · by_cases hn : n = 0
        · subst hn
          simp [roundTrip, resolve_type, resolve_type_sized, type_map, ft_empty,
            roundStable]
        · simp [roundTrip, resolve_type, resolve_type_sized, type_map, hn, ft_empty,
            roundStable]

end Notanorm
